import Mathlib

/-!
# Verification of the real-time room messaging subsystem of MiRC

Shallow embedding of `backend/server.py`: the `ConnectionManager`
(connection registry and room broadcaster), the WebSocket session
protocol of `websocket_endpoint`, and the HTTP send / history-fetch
paths (`send_message_http`, `get_room_messages`).

Modelling conventions:
* a WebSocket connection handle is an opaque `Nat`;
* the Python dict `active_connections : Dict[str, List[WebSocket]]` is an
  association list `List (RoomId × List Conn)` with dict lookup semantics
  (first matching key);
* `datetime.utcnow()` timestamps are `Nat`;
* network sends are modelled by a per-connection success predicate
  `sendOk : Conn → Bool` (the payload text is the same for every peer,
  so only success/failure matters);
* Python exceptions are modelled explicitly: `list.remove` on an absent
  element is a `ValueError`, `json.loads` on malformed text a
  `JSONDecodeError`, `d["content"]` on a missing key a `KeyError`.
-/

set_option autoImplicit false

namespace MiRC

abbrev RoomId := String
abbrev Conn := Nat

/-- The connection registry: `ConnectionManager.active_connections`. -/
abbrev Registry := List (RoomId × List Conn)

/-- Dict lookup: `active_connections[room_id]` / `room_id in active_connections`. -/
def lookupRoom : Registry → RoomId → Option (List Conn)
  | [], _ => none
  | (r, cs) :: rest, room => if r = room then some cs else lookupRoom rest room

/-- The connections currently registered for a room (empty when no entry). -/
def connsOf (reg : Registry) (room : RoomId) : List Conn :=
  (lookupRoom reg room).getD []

/-- Dict update of an existing key: replace the value of the first entry for `room`. -/
def setRoom : Registry → RoomId → List Conn → Registry
  | [], _, _ => []
  | (r, cs) :: rest, room, v =>
    if r = room then (r, v) :: rest else (r, cs) :: setRoom rest room v

/-- Dict deletion: `del active_connections[room_id]`. -/
def delRoom (reg : Registry) (room : RoomId) : Registry :=
  reg.filter (fun e => decide (e.1 ≠ room))

/-- Python `list.remove(x)`: removes the first occurrence of `x`, or fails
(`ValueError`) when `x` is absent. -/
def listRemove (x : Conn) : List Conn → Option (List Conn)
  | [] => none
  | c :: cs => if c = x then some cs else (listRemove x cs).map (c :: ·)

/-- `ConnectionManager.connect`: after `websocket.accept()`, create the room's
list if absent and append the websocket. -/
def connect (reg : Registry) (ws : Conn) (room : RoomId) : Registry :=
  match lookupRoom reg room with
  | none => reg ++ [(room, [ws])]
  | some cs => setRoom reg room (cs ++ [ws])

/-- `ConnectionManager.disconnect`: if the room has an entry, `list.remove` the
websocket (raising `ValueError` when it is absent) and delete the entry when
the remaining list is empty. A missing room entry is a silent no-op. -/
def disconnect (reg : Registry) (ws : Conn) (room : RoomId) : Except String Registry :=
  match lookupRoom reg room with
  | none => .ok reg
  | some cs =>
    match listRemove ws cs with
    | none => .error "ValueError"
    | some cs2 =>
      if cs2 = [] then .ok (delRoom reg room) else .ok (setRoom reg room cs2)

/-! ## The broadcaster

`broadcast_to_room` serialises the payload once and then runs
`for connection in self.active_connections[room_id]`, wrapping each
`send_text` in `try/except: pass`.  The Python `for` holds an index-based
iterator over the *live* list object; while a send is suspended (`await`),
a concurrently running `disconnect` may call `list.remove` on that same
list object.  `liveLoopF` models the loop: `lst` is the current content of
the list object, `i` the iterator index, and `sched` says which element (if
any) a concurrent `disconnect` removes while the `i`-th send is suspended.
The returned list is the set of connections whose send succeeded. -/

/-- One interleaved mutation of the list object: `none` = no concurrent
activity during this send, `some w` = a concurrent `list.remove(w)`. -/
def applyRemoval : Option Conn → List Conn → List Conn
  | none, lst => lst
  | some w, lst => (listRemove w lst).getD lst

/-- Fuel-indexed iteration of the broadcast `for` loop over the live list. -/
def liveLoopF (sendOk : Conn → Bool) : Nat → List (Option Conn) → List Conn → Nat → List Conn
  | 0, _, _, _ => []
  | fuel + 1, sched, lst, i =>
    if h : i < lst.length then
      (if sendOk (lst.get ⟨i, h⟩) then [lst.get ⟨i, h⟩] else []) ++
        (match sched with
          | [] => liveLoopF sendOk fuel [] lst (i + 1)
          | a :: rest => liveLoopF sendOk fuel rest (applyRemoval a lst) (i + 1))
    else []

/-- The broadcast loop over a list object whose initial content is `lst`.
The index advances once per iteration and the list never grows, so
`lst.length` fuel is exact. -/
def broadcastList (sendOk : Conn → Bool) (sched : List (Option Conn)) (lst : List Conn) : List Conn :=
  liveLoopF sendOk lst.length sched lst 0

/-- `ConnectionManager.broadcast_to_room`: no-op when the room has no entry,
otherwise the loop over the room's live connection list.  The result is the
list of connections that received the payload; the function is total — a
failed `send_text` is swallowed by `except: pass` and never reaches the
caller. -/
def broadcast_to_room (sendOk : Conn → Bool) (sched : List (Option Conn))
    (reg : Registry) (room : RoomId) : List Conn :=
  match lookupRoom reg room with
  | none => []
  | some cs => broadcastList sendOk sched cs

/-! ## Documents and environment -/

/-- The persisted message document (`message_doc` in both send paths, and the
fields of the `Message` response model). -/
structure MessageDoc where
  id : String
  content : String
  room_id : String
  user_id : String
  user_name : String
  user_avatar : Option String
  created_at : Nat
deriving DecidableEq, Repr

/-- A room document as read from `db.rooms` (`is_private`, `members` with
`room.get("members", [])` defaulting to empty). -/
structure RoomDoc where
  is_private : Bool
  members : List String
deriving DecidableEq, Repr

/-- A user document as read from `db.users` (`user["nickname"]`,
`user.get("avatar_url")`). -/
structure UserDoc where
  nickname : String
  avatar_url : Option String
deriving DecidableEq, Repr

/-- The external collaborators of the session protocol:
* `decode tok`: `jwt.decode` — `none` is a `JWTError`, `some sub` a payload
  whose `payload.get("sub")` is `sub` (`none` when the claim is absent);
* `users` / `rooms`: `db.users.find_one({"id": ...})` /
  `db.rooms.find_one({"id": ...})`;
* `sendOk`: per-connection send success;
* `freshId k` / `now k`: `str(uuid.uuid4())` and `datetime.utcnow()` for the
  `k`-th persisted message of the session. -/
structure Env where
  decode : String → Option (Option String)
  users : String → Option UserDoc
  rooms : String → Option RoomDoc
  sendOk : Conn → Bool
  freshId : Nat → String
  now : Nat → Nat

/-! ## The per-frame pipeline of `websocket_endpoint` -/

/-- An inbound text frame, as seen by `json.loads`: either malformed, or a
JSON object with optional `"token"` and `"content"` members. -/
inductive Frame where
  | notJson
  | json (token : Option String) (content : Option String)
deriving DecidableEq, Repr

/-- The outcome of processing one frame: an error frame sent back and
`continue`; a message document persisted and broadcast; or an uncaught
Python exception. -/
inductive FrameResult where
  | errorFrame (e : String)
  | message (doc : MessageDoc)
  | crash (exn : String)
deriving DecidableEq, Repr

/-- The body of the `while True` loop of `websocket_endpoint` for one frame:
token check, `jwt.decode`, user lookup, room lookup, private-room membership
check, then construction of `message_doc`.  `k` indexes the fresh id and
timestamp.  Python falsiness of `message_data.get("token")` and
`payload.get("sub")` (None or empty string) is modelled exactly. -/
def processFrame (env : Env) (room_id : RoomId) (k : Nat) (f : Frame) : FrameResult :=
  match f with
  | .notJson => .crash "JSONDecodeError"
  | .json token content =>
    match token with
    | none => .errorFrame "No token provided"
    | some tok =>
      if tok = "" then .errorFrame "No token provided"
      else
        match env.decode tok with
        | none => .errorFrame "Invalid token"
        | some none => .errorFrame "Invalid token"
        | some (some user_id) =>
          if user_id = "" then .errorFrame "Invalid token"
          else
            match env.users user_id with
            | none => .errorFrame "User not found"
            | some user =>
              match env.rooms room_id with
              | none => .errorFrame "Room not found"
              | some room =>
                if room.is_private = true ∧ user_id ∉ room.members then
                  .errorFrame "Access denied"
                else
                  match content with
                  | none => .crash "KeyError"
                  | some c =>
                    .message
                      { id := env.freshId k
                        content := c
                        room_id := room_id
                        user_id := user_id
                        user_name := user.nickname
                        user_avatar := user.avatar_url
                        created_at := env.now k }

/-! ## The session loop -/

/-- One event delivered to `await websocket.receive_text()`: a text frame, or
a `WebSocketDisconnect` raised by the transport. -/
inductive InEvent where
  | frame (f : Frame)
  | disconnectEvt
deriving DecidableEq, Repr

/-- How the session stands after the processed events. -/
inductive SessStatus where
  | awaiting
  | closedDisconnect
  | crashed (exn : String)
deriving DecidableEq, Repr

/-- Observable state of one `websocket_endpoint` task: the shared registry,
the message store (`db.messages` restricted to insertion order), the error
frames sent directly to this client, the broadcasts performed (payload and
delivered connections), whether `manager.disconnect` was invoked, and the
loop status. -/
structure SessState where
  reg : Registry
  store : List MessageDoc
  sent : List String
  broadcasts : List (MessageDoc × List Conn)
  calledDisconnect : Bool
  status : SessStatus
deriving DecidableEq, Repr

/-- The `try: while True: ...` / `except WebSocketDisconnect:` body of
`websocket_endpoint`.  A `WebSocketDisconnect` is caught and routed to
`manager.disconnect`; any other exception (`JSONDecodeError`, `KeyError`,
or a `ValueError` escaping `disconnect` itself) terminates the handler
without cleanup. -/
def stepEvents (env : Env) (room : RoomId) (ws : Conn) : List InEvent → SessState → SessState
  | [], st => st
  | e :: rest, st =>
    match e with
    | .disconnectEvt =>
      match disconnect st.reg ws room with
      | .ok reg2 =>
        { st with reg := reg2, calledDisconnect := true, status := .closedDisconnect }
      | .error ex => { st with calledDisconnect := true, status := .crashed ex }
    | .frame f =>
      match processFrame env room st.store.length f with
      | .errorFrame err => stepEvents env room ws rest { st with sent := st.sent ++ [err] }
      | .crash ex => { st with status := .crashed ex }
      | .message doc =>
        let delivered := broadcast_to_room env.sendOk [] st.reg room
        stepEvents env room ws rest
          { st with
            store := st.store ++ [doc]
            broadcasts := st.broadcasts ++ [(doc, delivered)] }

/-- `websocket_endpoint`: `manager.connect` (which registers the socket)
runs first, before any frame is read; then the frame loop. -/
def websocketEndpoint (env : Env) (room : RoomId) (ws : Conn) (reg0 : Registry)
    (store0 : List MessageDoc) (events : List InEvent) : SessState :=
  stepEvents env room ws events
    { reg := connect reg0 ws room
      store := store0
      sent := []
      broadcasts := []
      calledDisconnect := false
      status := .awaiting }

/-! ## The HTTP paths -/

/-- `send_message_http`: room lookup (404), private-room membership check
(403), then construction and insertion of the message document.  The
authenticated `current_user` is the resolved user document `u` with id
`uid`; `msgId` and `now` stand for `str(uuid.uuid4())` and
`datetime.utcnow()`. -/
def send_message_http (env : Env) (room_id : RoomId) (content : String)
    (uid : String) (u : UserDoc) (msgId : String) (now : Nat)
    (store : List MessageDoc) : Except (Nat × String) (MessageDoc × List MessageDoc) :=
  match env.rooms room_id with
  | none => .error (404, "Room not found")
  | some room =>
    if room.is_private = true ∧ uid ∉ room.members then
      .error (403, "Access denied to private room")
    else
      let doc : MessageDoc :=
        { id := msgId
          content := content
          room_id := room_id
          user_id := uid
          user_name := u.nickname
          user_avatar := u.avatar_url
          created_at := now }
      .ok (doc, store ++ [doc])

/-- Insertion step of the sort `db.messages.find(...).sort("created_at", -1)`:
place `m` before the first element whose timestamp it reaches. -/
def insertByDesc (m : MessageDoc) : List MessageDoc → List MessageDoc
  | [] => [m]
  | x :: xs => if x.created_at ≤ m.created_at then m :: x :: xs else x :: insertByDesc m xs

/-- The store query result sorted newest-first (`created_at` descending). -/
def sortByCreatedDesc : List MessageDoc → List MessageDoc
  | [] => []
  | x :: xs => insertByDesc x (sortByCreatedDesc xs)

/-- `get_room_messages`: room lookup (404), private-room membership check
(403), then the newest-first query limited to 50 documents, reversed to
oldest-first. -/
def get_room_messages (env : Env) (store : List MessageDoc) (room_id : RoomId)
    (uid : String) : Except (Nat × String) (List MessageDoc) :=
  match env.rooms room_id with
  | none => .error (404, "Room not found")
  | some room =>
    if room.is_private = true ∧ uid ∉ room.members then
      .error (403, "Access denied to private room")
    else
      .ok ((((sortByCreatedDesc (store.filter (fun m => m.room_id = room_id)))).take 50).reverse)

/-- The error component of an HTTP handler's outcome (`none` on success):
used to state that two handlers apply the same access-control check. -/
def exceptErr {ε α : Type} : Except ε α → Option ε
  | .error e => some e
  | .ok _ => none

/-- All the checks of steps 2–6 of the per-frame pipeline: a present,
non-empty token that decodes to a non-empty subject, an existing user, an
existing room, and membership when the room is private (and a `"content"`
member, read at persist time). -/
def checksPassed (env : Env) (room_id : RoomId) (f : Frame) : Prop :=
  ∃ tok content uid u rd,
    f = .json (some tok) (some content) ∧ tok ≠ "" ∧
    env.decode tok = some (some uid) ∧ uid ≠ "" ∧
    env.users uid = some u ∧ env.rooms room_id = some rd ∧
    (rd.is_private = true → uid ∈ rd.members)

/-- A concrete environment: token `"tokA"` resolves to user `"alice"`
(nickname `"Alice"`); room `"priv"` is private with member set `["bob"]`,
room `"pub"` is public. -/
def envA : Env :=
  { decode := fun t => if t = "tokA" then some (some "alice") else none
    users := fun u => if u = "alice" then some ⟨"Alice", some "av.png"⟩ else none
    rooms := fun r =>
      if r = "priv" then some ⟨true, ["bob"]⟩
      else if r = "pub" then some ⟨false, []⟩ else none
    sendOk := fun _ => true
    freshId := fun k => toString k
    now := fun k => k }

/-! ## Registry lemmas -/

theorem lookupRoom_append_of_none (reg : Registry) (room : RoomId) (v : List Conn)
    (h : lookupRoom reg room = none) :
    lookupRoom (reg ++ [(room, v)]) room = some v := by
  induction reg with
  | nil => simp [lookupRoom]
  | cons e rest ih =>
    obtain ⟨r, cs⟩ := e
    by_cases hr : r = room
    · simp [lookupRoom, hr] at h
    · simp only [lookupRoom, List.cons_append, if_neg hr] at h ⊢
      exact ih h

theorem lookupRoom_append_ne (reg : Registry) (room r : RoomId) (v : List Conn)
    (h : r ≠ room) :
    lookupRoom (reg ++ [(room, v)]) r = lookupRoom reg r := by
  induction reg with
  | nil => simp [lookupRoom, Ne.symm h]
  | cons e rest ih =>
    obtain ⟨r0, cs⟩ := e
    by_cases hr : r0 = r
    · simp [lookupRoom, hr]
    · simp only [lookupRoom, List.cons_append, if_neg hr]
      exact ih

theorem lookupRoom_setRoom_self (reg : Registry) (room : RoomId) (cs v : List Conn)
    (h : lookupRoom reg room = some cs) :
    lookupRoom (setRoom reg room v) room = some v := by
  induction reg with
  | nil => simp [lookupRoom] at h
  | cons e rest ih =>
    obtain ⟨r, cs0⟩ := e
    by_cases hr : r = room
    · simp [lookupRoom, setRoom, hr]
    · simp only [lookupRoom, setRoom, if_neg hr] at h ⊢
      exact ih h

theorem lookupRoom_setRoom_ne (reg : Registry) (room r : RoomId) (v : List Conn)
    (h : r ≠ room) :
    lookupRoom (setRoom reg room v) r = lookupRoom reg r := by
  induction reg with
  | nil => simp [setRoom]
  | cons e rest ih =>
    obtain ⟨r0, cs0⟩ := e
    by_cases hr : r0 = room
    · subst hr
      simp [setRoom, lookupRoom, Ne.symm h]
    · by_cases hr2 : r0 = r
      · simp [setRoom, lookupRoom, hr, hr2, h]
      · simp [setRoom, lookupRoom, hr, hr2, ih]

theorem lookupRoom_delRoom_self (reg : Registry) (room : RoomId) :
    lookupRoom (delRoom reg room) room = none := by
  induction reg with
  | nil => rfl
  | cons e rest ih =>
    obtain ⟨r, cs⟩ := e
    by_cases hr : r = room
    · simpa [delRoom, List.filter_cons, hr] using ih
    · simpa [delRoom, List.filter_cons, hr, lookupRoom] using ih

theorem lookupRoom_delRoom_ne (reg : Registry) (room r : RoomId) (h : r ≠ room) :
    lookupRoom (delRoom reg room) r = lookupRoom reg r := by
  induction reg with
  | nil => rfl
  | cons e rest ih =>
    obtain ⟨r0, cs⟩ := e
    by_cases hr : r0 = room
    · subst hr
      simpa [delRoom, List.filter_cons, lookupRoom, Ne.symm h] using ih
    · by_cases hr2 : r0 = r
      · simp [delRoom, List.filter_cons, hr, hr2, lookupRoom, h]
      · simpa [delRoom, List.filter_cons, hr, hr2, lookupRoom] using ih

theorem lookupRoom_connect_self (reg : Registry) (ws : Conn) (room : RoomId) :
    lookupRoom (connect reg ws room) room = some (connsOf reg room ++ [ws]) := by
  unfold connect connsOf
  cases h : lookupRoom reg room with
  | none => simpa [h] using lookupRoom_append_of_none reg room [ws] h
  | some cs => simpa [h] using lookupRoom_setRoom_self reg room cs (cs ++ [ws]) h

theorem lookupRoom_connect_ne (reg : Registry) (ws : Conn) (room r : RoomId)
    (h : r ≠ room) :
    lookupRoom (connect reg ws room) r = lookupRoom reg r := by
  unfold connect
  cases h2 : lookupRoom reg room with
  | none => exact lookupRoom_append_ne reg room r [ws] h
  | some cs => exact lookupRoom_setRoom_ne reg room r (cs ++ [ws]) h

/-! ## `list.remove` lemmas -/

theorem listRemove_eq_none_iff (x : Conn) (l : List Conn) :
    listRemove x l = none ↔ x ∉ l := by
  induction l with
  | nil => simp [listRemove]
  | cons c cs ih =>
    by_cases hc : c = x
    · subst hc; simp [listRemove]
    · have hx : ¬ x = c := fun e => hc e.symm
      simp [listRemove, hc, Option.map_eq_none', ih, hx]

theorem listRemove_append_of_not_mem (x : Conn) (l : List Conn) (h : x ∉ l) :
    listRemove x (l ++ [x]) = some l := by
  induction l with
  | nil => simp [listRemove]
  | cons c cs ih =>
    have hc : ¬ c = x := fun e => h (by simp [e])
    have : listRemove x (cs ++ [x]) = some cs := ih (fun hm => h (List.mem_cons_of_mem _ hm))
    simp [listRemove, hc, this]

theorem listRemove_subset (x : Conn) (l l2 : List Conn)
    (h : listRemove x l = some l2) : ∀ c, c ∈ l2 → c ∈ l := by
  induction l generalizing l2 with
  | nil => simp [listRemove] at h
  | cons c0 cs ih =>
    by_cases hc : c0 = x
    · simp only [listRemove, if_pos hc, Option.some.injEq] at h
      subst h
      exact fun c hm => List.mem_cons_of_mem _ hm
    · simp only [listRemove, if_neg hc, Option.map_eq_some'] at h
      obtain ⟨l1, hl1, rfl⟩ := h
      intro c hm
      rcases List.mem_cons.mp hm with rfl | hm
      · exact List.mem_cons_self _ _
      · exact List.mem_cons_of_mem _ (ih l1 hl1 c hm)

/-! ## Broadcast lemmas -/

theorem applyRemoval_subset (a : Option Conn) (lst : List Conn) (c : Conn)
    (h : c ∈ applyRemoval a lst) : c ∈ lst := by
  cases a with
  | none => exact h
  | some w =>
    simp only [applyRemoval] at h
    cases hr : listRemove w lst with
    | none => rw [hr] at h; simpa using h
    | some l2 =>
      rw [hr] at h
      exact listRemove_subset w lst l2 hr c (by simpa using h)

theorem liveLoopF_nil_sched (sendOk : Conn → Bool) :
    ∀ (fuel : Nat) (lst : List Conn) (i : Nat), lst.length ≤ fuel + i →
      liveLoopF sendOk fuel [] lst i = (lst.drop i).filter sendOk := by
  intro fuel
  induction fuel with
  | zero =>
    intro lst i h
    rw [liveLoopF, List.drop_eq_nil_of_le (by omega)]
    rfl
  | succ fuel ih =>
    intro lst i h
    by_cases hi : i < lst.length
    · rw [liveLoopF]
      simp only [hi, dif_pos]
      rw [ih lst (i + 1) (by omega)]
      rw [List.drop_eq_getElem_cons hi, List.filter_cons]
      have : lst.get ⟨i, hi⟩ = lst[i] := rfl
      rw [this]
      cases hs : sendOk lst[i] <;> simp [hs]
    · rw [liveLoopF]
      simp only [hi, dif_neg, not_false_iff]
      rw [List.drop_eq_nil_of_le (by omega)]
      rfl

theorem broadcastList_nil_sched (sendOk : Conn → Bool) (lst : List Conn) :
    broadcastList sendOk [] lst = lst.filter sendOk := by
  unfold broadcastList
  simpa using liveLoopF_nil_sched sendOk lst.length lst 0 (by omega)

theorem mem_liveLoopF (sendOk : Conn → Bool) :
    ∀ (fuel : Nat) (sched : List (Option Conn)) (lst : List Conn) (i : Nat) (c : Conn),
      c ∈ liveLoopF sendOk fuel sched lst i → c ∈ lst := by
  intro fuel
  induction fuel with
  | zero => intro _ _ _ _ h; rw [liveLoopF] at h; cases h
  | succ fuel ih =>
    intro sched lst i c h
    have hd : ∀ hi : i < lst.length,
        c ∈ (if sendOk (lst.get ⟨i, hi⟩) = true then [lst.get ⟨i, hi⟩] else []) →
          c ∈ lst := by
      intro hi h1
      by_cases hs : sendOk (lst.get ⟨i, hi⟩) = true
      · rw [if_pos hs] at h1
        exact (List.mem_singleton.mp h1) ▸ List.get_mem lst i hi
      · rw [if_neg hs] at h1
        exact absurd h1 (List.not_mem_nil c)
    cases sched with
    | nil =>
      rw [liveLoopF] at h
      by_cases hi : i < lst.length
      · rw [dif_pos hi] at h
        rcases List.mem_append.mp h with h1 | h2
        · exact hd hi h1
        · exact ih [] lst (i + 1) c h2
      · rw [dif_neg hi] at h
        cases h
    | cons a rest =>
      rw [liveLoopF] at h
      by_cases hi : i < lst.length
      · rw [dif_pos hi] at h
        rcases List.mem_append.mp h with h1 | h2
        · exact hd hi h1
        · exact applyRemoval_subset a lst c (ih rest (applyRemoval a lst) (i + 1) c h2)
      · rw [dif_neg hi] at h
        cases h

theorem broadcast_to_room_nil_sched (sendOk : Conn → Bool) (reg : Registry) (room : RoomId) :
    broadcast_to_room sendOk [] reg room = (connsOf reg room).filter sendOk := by
  unfold broadcast_to_room connsOf
  cases h : lookupRoom reg room with
  | none => rfl
  | some cs => simpa using broadcastList_nil_sched sendOk cs

theorem mem_broadcast_to_room (sendOk : Conn → Bool) (sched : List (Option Conn))
    (reg : Registry) (room : RoomId) (c : Conn)
    (h : c ∈ broadcast_to_room sendOk sched reg room) : c ∈ connsOf reg room := by
  unfold broadcast_to_room at h
  cases h2 : lookupRoom reg room with
  | none => rw [h2] at h; cases h
  | some cs =>
    rw [h2] at h
    unfold connsOf
    rw [h2]
    exact mem_liveLoopF sendOk cs.length sched cs 0 c h

/-! ## Claim C3: behaviour of `ConnectionManager.disconnect` -/

/-- C3 counterexample: `disconnect` is not idempotent.  In registry
`{"A": [1, 2]}`, disconnecting connection `1` from room `"A"` succeeds and
leaves `{"A": [2]}`; calling it again for the same pair (whose connection is
now absent while the room's entry still exists) raises `ValueError` from
`list.remove`, so the second call is an error, not a no-op. -/
theorem disconnect_idempotent_cex :
    disconnect [("A", [1, 2])] 1 "A" = .ok [("A", [2])] ∧
    disconnect [("A", [2])] 1 "A" = .error "ValueError" := by
  constructor <;> rfl

/-- C3 (amended): `disconnect` is a no-op when the room has no registry
entry; but when the room's entry exists and the connection is absent from
its list, `list.remove` raises `ValueError`.  When a removal empties the
room's list the entry is deleted, otherwise the shrunken list is kept, and
every other room's entry is unchanged. -/
theorem disconnect_amended_spec (reg : Registry) (ws : Conn) (room : RoomId) :
    (lookupRoom reg room = none → disconnect reg ws room = .ok reg) ∧
    (∀ cs, lookupRoom reg room = some cs → ws ∉ cs →
      disconnect reg ws room = .error "ValueError") ∧
    (∀ cs cs2, lookupRoom reg room = some cs → listRemove ws cs = some cs2 →
      ∃ reg2, disconnect reg ws room = .ok reg2 ∧
        (cs2 = [] → lookupRoom reg2 room = none) ∧
        (cs2 ≠ [] → lookupRoom reg2 room = some cs2) ∧
        (∀ r, r ≠ room → lookupRoom reg2 r = lookupRoom reg r)) := by
  refine ⟨fun h => by simp [disconnect, h], fun cs h hws => ?_, fun cs cs2 h hrem => ?_⟩
  · have : listRemove ws cs = none := (listRemove_eq_none_iff ws cs).mpr hws
    simp [disconnect, h, this]
  · by_cases he : cs2 = []
    · subst he
      refine ⟨delRoom reg room, by simp [disconnect, h, hrem], ?_, ?_, ?_⟩
      · intro _; exact lookupRoom_delRoom_self reg room
      · intro hne; exact absurd rfl hne
      · intro r hr; exact lookupRoom_delRoom_ne reg room r hr
    · refine ⟨setRoom reg room cs2, by simp [disconnect, h, hrem, he], ?_, ?_, ?_⟩
      · intro h2; exact absurd h2 he
      · intro _; exact lookupRoom_setRoom_self reg room cs cs2 h
      · intro r hr; exact lookupRoom_setRoom_ne reg room r cs2 hr

/-- C3 witness: the amended statement evaluated on the registry
`{"A": [1, 2], "B": [7]}`. -/
theorem disconnect_amended_spec_witness :
    (∀ cs, lookupRoom [("A", [1, 2]), ("B", [7])] "A" = some cs → (9 : Conn) ∉ cs →
      disconnect [("A", [1, 2]), ("B", [7])] 9 "A" = .error "ValueError") ∧
    disconnect [("A", [1, 2]), ("B", [7])] 9 "A" = .error "ValueError" := by
  have h := disconnect_amended_spec [("A", [1, 2]), ("B", [7])] 9 "A"
  exact ⟨h.2.1, h.2.1 [1, 2] (by decide) (by decide)⟩

/-! ## Claim C4: the broadcaster tolerates partial send failure -/

/-- C4: `broadcast_to_room` is total (a failed `send_text` is swallowed by
`except: pass`, so no error ever propagates to the caller), and a send
failure on any subset of connections does not prevent delivery to the
others: every registered connection of the room whose own send succeeds
receives the payload, whatever the other connections' sends do.  The
delivered set is exactly the registered connections with a succeeding
send. -/
theorem broadcast_tolerates_send_failure (sendOk : Conn → Bool) (reg : Registry)
    (room : RoomId) :
    broadcast_to_room sendOk [] reg room = (connsOf reg room).filter sendOk ∧
    (∀ c, c ∈ connsOf reg room → sendOk c = true →
      c ∈ broadcast_to_room sendOk [] reg room) := by
  refine ⟨broadcast_to_room_nil_sched sendOk reg room, fun c hc hok => ?_⟩
  rw [broadcast_to_room_nil_sched]
  exact List.mem_filter.mpr ⟨hc, hok⟩

/-- C4 witness: of three registered connections where connection `2`'s send
always fails, connections `1` and `3` still receive the payload. -/
theorem broadcast_tolerates_send_failure_witness :
    (1 : Conn) ∈ broadcast_to_room (fun c => decide (c ≠ 2)) [] [("r1", [1, 2, 3])] "r1" ∧
    (3 : Conn) ∈ broadcast_to_room (fun c => decide (c ≠ 2)) [] [("r1", [1, 2, 3])] "r1" := by
  have h := broadcast_tolerates_send_failure (fun c => decide (c ≠ 2)) [("r1", [1, 2, 3])] "r1"
  exact ⟨h.2 1 (by decide) (by decide), h.2 3 (by decide) (by decide)⟩

/-! ## Claim C5: the broadcast iterates the live list, not a snapshot -/

/-- C5 counterexample: the loop of `broadcast_to_room` iterates
`self.active_connections[room_id]` itself, not a copy.  With connections
`[1, 2, 3]` registered at the start and every send succeeding, a concurrent
`list.remove(1)` interleaved while the first send is suspended shifts the
list under the iterator: connection `2` is skipped and the delivered set is
`[1, 3]`, not the start-of-broadcast snapshot `[1, 2, 3]`.  So a concurrent
unregister can mutate the collection being iterated, contradicting the
snapshot claim. -/
theorem broadcast_snapshot_cex :
    broadcast_to_room (fun _ => true) [some 1] [("A", [1, 2, 3])] "A" = [1, 3] ∧
    (2 : Conn) ∈ connsOf [("A", [1, 2, 3])] "A" ∧
    broadcast_to_room (fun _ => true) [some 1] [("A", [1, 2, 3])] "A" ≠
      (connsOf [("A", [1, 2, 3])] "A").filter (fun _ => true) := by
  refine ⟨by rfl, by decide, by decide⟩

/-- C5 (amended): the broadcast iterates the live connection list.  Only in
the absence of interleaved mutation does it deliver to exactly the
connections registered at the start of the broadcast (filtered by send
success); under interleaved mutation the delivered set is still contained
in the start-of-broadcast registration, but may omit still-registered
connections. -/
theorem broadcast_live_list_amended (sendOk : Conn → Bool) (reg : Registry) (room : RoomId) :
    broadcast_to_room sendOk [] reg room = (connsOf reg room).filter sendOk ∧
    (∀ sched c, c ∈ broadcast_to_room sendOk sched reg room → c ∈ connsOf reg room) :=
  ⟨broadcast_to_room_nil_sched sendOk reg room,
   fun sched c h => mem_broadcast_to_room sendOk sched reg room c h⟩

/-- C5 witness: the amended statement evaluated on `{"A": [1, 2, 3]}` —
without interleaving the delivered set is the start snapshot, and with the
interleaved removal the delivered connection `3` was registered at start. -/
theorem broadcast_live_list_amended_witness :
    broadcast_to_room (fun _ => true) [] [("A", [1, 2, 3])] "A" =
      (connsOf [("A", [1, 2, 3])] "A").filter (fun _ => true) ∧
    (3 : Conn) ∈ connsOf [("A", [1, 2, 3])] "A" :=
  ⟨(broadcast_live_list_amended (fun _ => true) [("A", [1, 2, 3])] "A").1,
   (broadcast_live_list_amended (fun _ => true) [("A", [1, 2, 3])] "A").2
     [some 1] 3 (by decide)⟩

/-! ## Claim C8: registry isolation of broadcasts -/

/-- C8: a broadcast to room `A` (under any interleaving of concurrent
registry activity) delivers only to connections registered under `A`; a
connection registered only under a distinct room `B` never receives it. -/
theorem registry_isolation (sendOk : Conn → Bool) (sched : List (Option Conn))
    (reg : Registry) (A B : RoomId) (ws : Conn)
    (hAB : A ≠ B) (hB : ws ∈ connsOf reg B) (hA : ws ∉ connsOf reg A) :
    ws ∉ broadcast_to_room sendOk sched reg A :=
  fun h => hA (mem_broadcast_to_room sendOk sched reg A ws h)

/-- C8 witness: with `1` registered only under `"B"`, a broadcast to `"A"`
does not reach it. -/
theorem registry_isolation_witness :
    (1 : Conn) ∉ broadcast_to_room (fun _ => true) [] [("A", [2]), ("B", [1])] "A" :=
  registry_isolation (fun _ => true) [] [("A", [2]), ("B", [1])] "A" "B" 1
    (by decide) (by decide) (by decide)

/-! ## Claim C1: authorization precedes persistence -/

/-- C1: a message document is constructed only when the credential check,
identity lookup, room lookup and private-room membership check have all
passed; and for a frame on a private room whose verified user is not a
member, the session state is unchanged except for the single error frame
`{"error": "Access denied"}` — nothing is appended to the store and no
broadcast occurs. -/
theorem auth_precedes_persist (env : Env) (room : RoomId) (ws : Conn) :
    (∀ (k : Nat) (f : Frame) (doc : MessageDoc),
      processFrame env room k f = .message doc → checksPassed env room f) ∧
    (∀ (st : SessState) (tok uid : String) (u : UserDoc) (rd : RoomDoc)
        (content : Option String),
      tok ≠ "" → env.decode tok = some (some uid) → uid ≠ "" →
      env.users uid = some u → env.rooms room = some rd →
      rd.is_private = true → uid ∉ rd.members →
      stepEvents env room ws [.frame (.json (some tok) content)] st =
        { st with sent := st.sent ++ ["Access denied"] }) := by
  constructor
  · intro k f doc h
    cases f with
    | notJson => simp [processFrame] at h
    | json token content =>
      cases token with
      | none => simp [processFrame] at h
      | some tok =>
        by_cases htok : tok = ""
        · simp [processFrame, htok] at h
        · cases hdec : env.decode tok with
          | none => simp [processFrame, htok, hdec] at h
          | some sub =>
            cases sub with
            | none => simp [processFrame, htok, hdec] at h
            | some uid =>
              by_cases huid : uid = ""
              · simp [processFrame, htok, hdec, huid] at h
              · cases huser : env.users uid with
                | none => simp [processFrame, htok, hdec, huid, huser] at h
                | some u =>
                  cases hroom : env.rooms room with
                  | none => simp [processFrame, htok, hdec, huid, huser, hroom] at h
                  | some rd =>
                    by_cases hacc : rd.is_private = true ∧ uid ∉ rd.members
                    · simp [processFrame, htok, hdec, huid, huser, hroom, hacc] at h
                    · cases content with
                      | none =>
                        simp [processFrame, htok, hdec, huid, huser, hroom, hacc] at h
                      | some c =>
                        exact ⟨tok, c, uid, u, rd, rfl, htok, hdec, huid, huser, hroom,
                          fun hp => by
                            by_contra hmem
                            exact hacc ⟨hp, hmem⟩⟩
  · intro st tok uid u rd content htok hdec huid huser hroom hpriv hmem
    have hacc : rd.is_private = true ∧ uid ∉ rd.members := ⟨hpriv, hmem⟩
    simp [stepEvents, processFrame, htok, hdec, huid, huser, hroom, hacc]

/-- C1 witness: in `envA`, alice's frame on private room `"priv"` (member
set `["bob"]`) leaves the store, registry and broadcasts unchanged and
sends back exactly `Access denied`. -/
theorem auth_precedes_persist_witness :
    stepEvents envA "priv" 1 [.frame (.json (some "tokA") (some "hi"))]
        { reg := [("priv", [1])], store := [], sent := [], broadcasts := [],
          calledDisconnect := false, status := .awaiting } =
      { reg := [("priv", [1])], store := [], sent := ["Access denied"], broadcasts := [],
        calledDisconnect := false, status := .awaiting } :=
  (auth_precedes_persist envA "priv" 1).2
    { reg := [("priv", [1])], store := [], sent := [], broadcasts := [],
      calledDisconnect := false, status := .awaiting }
    "tokA" "alice" ⟨"Alice", some "av.png"⟩ ⟨true, ["bob"]⟩ (some "hi")
    (by decide) (by decide) (by decide) (by decide) (by decide) (by decide) (by decide)

/-! ## Claim C9: accept-time registration, credential-free broadcasts -/

/-- C9: `websocket_endpoint` registers the connection at socket-accept time,
before any frame (hence any credential) is read — with zero frames
processed the registry already holds the socket — and a broadcast to the
room delivers to every registered connection whose send succeeds.  So a
socket opened to a private room by a non-member who never presents a token
receives every subsequent broadcast payload of that room. -/
theorem accept_time_registration (env : Env) (room : RoomId) (ws : Conn)
    (reg0 : Registry) (store0 : List MessageDoc) (rd : RoomDoc)
    (hroom : env.rooms room = some rd) (hpriv : rd.is_private = true)
    (hsend : env.sendOk ws = true) :
    (websocketEndpoint env room ws reg0 store0 []).reg = connect reg0 ws room ∧
    ws ∈ connsOf (connect reg0 ws room) room ∧
    ws ∈ broadcast_to_room env.sendOk [] (connect reg0 ws room) room := by
  have hmem : ws ∈ connsOf (connect reg0 ws room) room := by
    unfold connsOf
    rw [lookupRoom_connect_self]
    simp
  refine ⟨rfl, hmem, ?_⟩
  rw [broadcast_to_room_nil_sched]
  exact List.mem_filter.mpr ⟨hmem, hsend⟩

/-- C9 witness: socket `7`, which never sends a frame, is registered on
private room `"priv"` of `envA` (whose member set is `["bob"]`) and is
reached by a broadcast to that room. -/
theorem accept_time_registration_witness :
    (websocketEndpoint envA "priv" 7 [] [] []).reg = connect [] 7 "priv" ∧
    (7 : Conn) ∈ connsOf (connect [] 7 "priv") "priv" ∧
    (7 : Conn) ∈ broadcast_to_room envA.sendOk [] (connect [] 7 "priv") "priv" :=
  accept_time_registration envA "priv" 7 [] [] ⟨true, ["bob"]⟩
    (by decide) (by decide) (by decide)

/-! ## Claim C10: malformed frames crash the handler without cleanup -/

/-- C10: a text frame that is not valid JSON raises `json.JSONDecodeError`,
and a frame passing every check but lacking a `"content"` key raises
`KeyError` at `message_data["content"]`; neither is `WebSocketDisconnect`,
so the handler terminates with no error frame sent, nothing persisted or
broadcast, and `manager.disconnect` never called. -/
theorem malformed_frames_crash_without_cleanup (env : Env) (room : RoomId) (ws : Conn)
    (reg0 : Registry) (store0 : List MessageDoc)
    (tok uid : String) (u : UserDoc) (rd : RoomDoc)
    (htok : tok ≠ "") (hdec : env.decode tok = some (some uid)) (huid : uid ≠ "")
    (huser : env.users uid = some u) (hroom : env.rooms room = some rd)
    (hacc : ¬(rd.is_private = true ∧ uid ∉ rd.members)) :
    websocketEndpoint env room ws reg0 store0 [.frame .notJson] =
      { reg := connect reg0 ws room, store := store0, sent := [], broadcasts := [],
        calledDisconnect := false, status := .crashed "JSONDecodeError" } ∧
    websocketEndpoint env room ws reg0 store0 [.frame (.json (some tok) none)] =
      { reg := connect reg0 ws room, store := store0, sent := [], broadcasts := [],
        calledDisconnect := false, status := .crashed "KeyError" } := by
  constructor
  · simp [websocketEndpoint, stepEvents, processFrame]
  · simp [websocketEndpoint, stepEvents, processFrame, htok, hdec, huid, huser, hroom, hacc]

/-- C10 witness: in `envA`, on public room `"pub"`, a non-JSON frame and a
checked frame without `"content"` each crash the loop with no error frame
and no `manager.disconnect`. -/
theorem malformed_frames_crash_without_cleanup_witness :
    websocketEndpoint envA "pub" 1 [] [] [.frame .notJson] =
      { reg := [("pub", [1])], store := [], sent := [], broadcasts := [],
        calledDisconnect := false, status := .crashed "JSONDecodeError" } ∧
    websocketEndpoint envA "pub" 1 [] [] [.frame (.json (some "tokA") none)] =
      { reg := [("pub", [1])], store := [], sent := [], broadcasts := [],
        calledDisconnect := false, status := .crashed "KeyError" } :=
  malformed_frames_crash_without_cleanup envA "pub" 1 [] [] "tokA" "alice"
    ⟨"Alice", some "av.png"⟩ ⟨false, []⟩
    (by decide) (by decide) (by decide) (by decide) (by decide) (by decide)

/-! ## Claim C2: cleanup on session end -/

/-- Through any prefix of frame events the registry component of the session
state is untouched; when the run ends in `closedDisconnect`, the final
registry is the successful result of `manager.disconnect` applied to that
untouched registry. -/
theorem stepEvents_closed_disconnect (env : Env) (room : RoomId) (ws : Conn) :
    ∀ (events : List InEvent) (st : SessState),
      st.status = .awaiting → st.calledDisconnect = false →
      (stepEvents env room ws events st).status = .closedDisconnect →
        (stepEvents env room ws events st).calledDisconnect = true ∧
        disconnect st.reg ws room = .ok (stepEvents env room ws events st).reg := by
  intro events
  induction events with
  | nil =>
    intro st h2 h3 hs
    rw [stepEvents] at hs
    rw [h2] at hs
    cases hs
  | cons e rest ih =>
    intro st h2 h3 hs
    cases e with
    | disconnectEvt =>
      cases hd : disconnect st.reg ws room with
      | ok reg2 =>
        rw [stepEvents, hd] at hs ⊢
        exact ⟨rfl, rfl⟩
      | error ex =>
        rw [stepEvents, hd] at hs
        cases hs
    | frame f =>
      cases hp : processFrame env room st.store.length f with
      | errorFrame err =>
        rw [stepEvents, hp] at hs ⊢
        exact ih { st with sent := st.sent ++ [err] } h2 h3 hs
      | crash ex =>
        rw [stepEvents, hp] at hs
        cases hs
      | message doc =>
        rw [stepEvents, hp] at hs ⊢
        exact ih
          { st with
            store := st.store ++ [doc]
            broadcasts := st.broadcasts ++ [(doc, broadcast_to_room env.sendOk [] st.reg room)] }
          h2 h3 hs

/-- C2 counterexample: a session can end without `manager.disconnect` being
called.  A single non-JSON frame raises `json.JSONDecodeError`, which the
`except WebSocketDisconnect` clause does not match: the handler terminates
crashed, no cleanup runs, and the dead socket `1` is still registered for
`"r1"` (so it would still be targeted by later broadcasts). -/
theorem frame_error_skips_cleanup_cex :
    (websocketEndpoint envA "r1" 1 [] [] [.frame .notJson]).status =
      .crashed "JSONDecodeError" ∧
    (websocketEndpoint envA "r1" 1 [] [] [.frame .notJson]).calledDisconnect = false ∧
    connsOf (websocketEndpoint envA "r1" 1 [] [] [.frame .notJson]).reg "r1" = [1] := by
  refine ⟨rfl, rfl, rfl⟩

/-- C2 (amended): when the session ends because the transport raised
`WebSocketDisconnect` (client-initiated close or network failure), the
handler deterministically calls `manager.disconnect` before terminating:
afterwards the room's registered connections are exactly those present
before the socket connected, the disconnected socket receives no further
broadcast to its room, and if it was the room's last member the room's
registry entry is removed.  (An exception raised while processing a frame
instead terminates the handler without reaching `manager.disconnect` — see
the counterexample.) -/
theorem disconnect_cleanup_amended (env : Env) (room : RoomId) (ws : Conn)
    (reg0 : Registry) (store0 : List MessageDoc) (events : List InEvent)
    (hfresh : ws ∉ connsOf reg0 room)
    (hclosed : (websocketEndpoint env room ws reg0 store0 events).status = .closedDisconnect) :
    (websocketEndpoint env room ws reg0 store0 events).calledDisconnect = true ∧
    connsOf (websocketEndpoint env room ws reg0 store0 events).reg room = connsOf reg0 room ∧
    ws ∉ broadcast_to_room env.sendOk []
      (websocketEndpoint env room ws reg0 store0 events).reg room ∧
    (connsOf reg0 room = [] →
      lookupRoom (websocketEndpoint env room ws reg0 store0 events).reg room = none) := by
  have h := stepEvents_closed_disconnect env room ws events
    { reg := connect reg0 ws room, store := store0, sent := [], broadcasts := [],
      calledDisconnect := false, status := .awaiting } rfl rfl hclosed
  obtain ⟨hcall, hdisc⟩ := h
  refine ⟨hcall, ?_⟩
  have hlk : lookupRoom (connect reg0 ws room) room = some (connsOf reg0 room ++ [ws]) :=
    lookupRoom_connect_self reg0 ws room
  have hrem : listRemove ws (connsOf reg0 room ++ [ws]) = some (connsOf reg0 room) :=
    listRemove_append_of_not_mem ws (connsOf reg0 room) hfresh
  have hconns : connsOf (websocketEndpoint env room ws reg0 store0 events).reg room =
      connsOf reg0 room ∧
      (connsOf reg0 room = [] →
        lookupRoom (websocketEndpoint env room ws reg0 store0 events).reg room = none) := by
    simp only [disconnect, hlk, hrem] at hdisc
    by_cases he : connsOf reg0 room = []
    · rw [if_pos he] at hdisc
      have hreg : (websocketEndpoint env room ws reg0 store0 events).reg =
          delRoom (connect reg0 ws room) room := (Except.ok.inj hdisc).symm
      rw [hreg]
      refine ⟨?_, fun _ => lookupRoom_delRoom_self _ _⟩
      rw [he]
      unfold connsOf
      rw [lookupRoom_delRoom_self]
      rfl
    · rw [if_neg he] at hdisc
      have hreg : (websocketEndpoint env room ws reg0 store0 events).reg =
          setRoom (connect reg0 ws room) room (connsOf reg0 room) :=
        (Except.ok.inj hdisc).symm
      rw [hreg]
      constructor
      · unfold connsOf
        rw [lookupRoom_setRoom_self _ _ _ _ hlk]
        rfl
      · intro h0; exact absurd h0 he
  refine ⟨hconns.1, ?_, hconns.2⟩
  intro hbr
  have := mem_broadcast_to_room _ _ _ _ _ hbr
  rw [hconns.1] at this
  exact hfresh this

/-- C2 witness: socket `5` connects to `"pub"` of `envA` (where socket `2`
is already registered), posts one valid message, then the client closes.
The cleanup runs, `"pub"` is back to `[2]`, and `5` gets no further
broadcast. -/
theorem disconnect_cleanup_amended_witness :
    (websocketEndpoint envA "pub" 5 [("pub", [2])] []
        [.frame (.json (some "tokA") (some "hi")), .disconnectEvt]).calledDisconnect = true ∧
    connsOf (websocketEndpoint envA "pub" 5 [("pub", [2])] []
        [.frame (.json (some "tokA") (some "hi")), .disconnectEvt]).reg "pub" =
      connsOf [("pub", [2])] "pub" ∧
    (5 : Conn) ∉ broadcast_to_room envA.sendOk []
      (websocketEndpoint envA "pub" 5 [("pub", [2])] []
        [.frame (.json (some "tokA") (some "hi")), .disconnectEvt]).reg "pub" ∧
    (connsOf [("pub", [2])] "pub" = [] →
      lookupRoom (websocketEndpoint envA "pub" 5 [("pub", [2])] []
        [.frame (.json (some "tokA") (some "hi")), .disconnectEvt]).reg "pub" = none) :=
  disconnect_cleanup_amended envA "pub" 5 [("pub", [2])] []
    [.frame (.json (some "tokA") (some "hi")), .disconnectEvt]
    (by decide) (by decide)

/-! ## Claim C6: HTTP and WebSocket persistence shapes coincide -/

/-- C6: for the same author identity (id, nickname, avatar), room, content,
message id and timestamp, the WebSocket session path and the HTTP send path
persist the identical message document — same field set, same values,
including the denormalized `user_name` from the author's nickname. -/
theorem http_ws_same_persistence_shape (env : Env) (room_id : RoomId) (k : Nat)
    (tok uid content : String) (u : UserDoc) (rd : RoomDoc) (store : List MessageDoc)
    (htok : tok ≠ "") (hdec : env.decode tok = some (some uid)) (huid : uid ≠ "")
    (huser : env.users uid = some u) (hroom : env.rooms room_id = some rd)
    (hacc : ¬(rd.is_private = true ∧ uid ∉ rd.members)) :
    ∃ doc : MessageDoc,
      processFrame env room_id k (.json (some tok) (some content)) = .message doc ∧
      send_message_http env room_id content uid u (env.freshId k) (env.now k) store =
        .ok (doc, store ++ [doc]) := by
  refine ⟨{ id := env.freshId k, content := content, room_id := room_id, user_id := uid,
            user_name := u.nickname, user_avatar := u.avatar_url,
            created_at := env.now k }, ?_, ?_⟩
  · simp [processFrame, htok, hdec, huid, huser, hroom, hacc]
  · simp [send_message_http, hroom, hacc]

/-- C6 witness: alice's message `"hi"` on public room `"pub"` of `envA`
persists as the same document through both paths. -/
theorem http_ws_same_persistence_shape_witness :
    ∃ doc : MessageDoc,
      processFrame envA "pub" 0 (.json (some "tokA") (some "hi")) = .message doc ∧
      send_message_http envA "pub" "hi" "alice" ⟨"Alice", some "av.png"⟩
          (envA.freshId 0) (envA.now 0) [] = .ok (doc, [] ++ [doc]) :=
  http_ws_same_persistence_shape envA "pub" 0 "tokA" "alice" "hi"
    ⟨"Alice", some "av.png"⟩ ⟨false, []⟩ []
    (by decide) (by decide) (by decide) (by decide) (by decide) (by decide)

/-! ## Claim C7: history fetch ordering and access control -/

theorem mem_insertByDesc (m : MessageDoc) (l : List MessageDoc) (y : MessageDoc)
    (h : y ∈ insertByDesc m l) : y = m ∨ y ∈ l := by
  induction l with
  | nil => simpa [insertByDesc] using h
  | cons x xs ih =>
    unfold insertByDesc at h
    by_cases hc : x.created_at ≤ m.created_at
    · rw [if_pos hc] at h
      rcases List.mem_cons.mp h with rfl | h2
      · exact Or.inl rfl
      · exact Or.inr h2
    · rw [if_neg hc] at h
      rcases List.mem_cons.mp h with rfl | h2
      · exact Or.inr (List.mem_cons_self _ _)
      · rcases ih h2 with h3 | h3
        · exact Or.inl h3
        · exact Or.inr (List.mem_cons_of_mem _ h3)

theorem pairwise_insertByDesc (m : MessageDoc) (l : List MessageDoc)
    (h : l.Pairwise (fun a b => b.created_at ≤ a.created_at)) :
    (insertByDesc m l).Pairwise (fun a b => b.created_at ≤ a.created_at) := by
  induction l with
  | nil => simp [insertByDesc]
  | cons x xs ih =>
    rcases List.pairwise_cons.mp h with ⟨hx, hxs⟩
    unfold insertByDesc
    by_cases hc : x.created_at ≤ m.created_at
    · rw [if_pos hc]
      refine List.pairwise_cons.mpr ⟨?_, h⟩
      intro y hy
      rcases List.mem_cons.mp hy with rfl | hy2
      · exact hc
      · exact le_trans (hx y hy2) hc
    · rw [if_neg hc]
      refine List.pairwise_cons.mpr ⟨?_, ih hxs⟩
      intro y hy
      rcases mem_insertByDesc m xs y hy with rfl | hy2
      · exact le_of_not_le hc
      · exact hx y hy2

theorem pairwise_sortByCreatedDesc (l : List MessageDoc) :
    (sortByCreatedDesc l).Pairwise (fun a b => b.created_at ≤ a.created_at) := by
  induction l with
  | nil => simp [sortByCreatedDesc]
  | cons x xs ih => exact pairwise_insertByDesc x _ ih

/-- C7: `get_room_messages` returns 404 when the room does not exist and 403
when the room is private and the requester is not a member — the same
access-control outcome as the HTTP send path on every input — and on
success returns the reversal of the newest-first (`created_at` descending)
store query limited to 50 documents, which is oldest-first (sorted
ascending by `created_at`). -/
theorem get_room_messages_spec (env : Env) (store : List MessageDoc)
    (room_id : RoomId) (uid : String) :
    (env.rooms room_id = none →
      get_room_messages env store room_id uid = .error (404, "Room not found")) ∧
    (∀ rd, env.rooms room_id = some rd → rd.is_private = true → uid ∉ rd.members →
      get_room_messages env store room_id uid =
        .error (403, "Access denied to private room")) ∧
    (∀ content u msgId now store2,
      exceptErr (get_room_messages env store room_id uid) =
        exceptErr (send_message_http env room_id content uid u msgId now store2)) ∧
    (∀ rd, env.rooms room_id = some rd → ¬(rd.is_private = true ∧ uid ∉ rd.members) →
      get_room_messages env store room_id uid =
        .ok ((((sortByCreatedDesc
          (store.filter (fun m => m.room_id = room_id)))).take 50).reverse) ∧
      ∀ l, get_room_messages env store room_id uid = .ok l →
        l.Pairwise (fun a b => a.created_at ≤ b.created_at)) := by
  refine ⟨fun h => by simp [get_room_messages, h], ?_, ?_, ?_⟩
  · intro rd h hp hm
    simp [get_room_messages, h, hp, hm]
  · intro content u msgId now store2
    cases h : env.rooms room_id with
    | none => simp [get_room_messages, send_message_http, h, exceptErr]
    | some rd =>
      by_cases hacc : rd.is_private = true ∧ uid ∉ rd.members
      · simp [get_room_messages, send_message_http, h, hacc, exceptErr]
      · simp [get_room_messages, send_message_http, h, hacc, exceptErr]
  · intro rd h hacc
    have heq : get_room_messages env store room_id uid =
        .ok ((((sortByCreatedDesc
          (store.filter (fun m => m.room_id = room_id)))).take 50).reverse) := by
      simp [get_room_messages, h, hacc]
    refine ⟨heq, fun l hl => ?_⟩
    have hll : l = (((sortByCreatedDesc
        (store.filter (fun m => m.room_id = room_id)))).take 50).reverse := by
      rw [heq] at hl
      exact (Except.ok.inj hl).symm
    subst hll
    rw [List.pairwise_reverse]
    exact List.Pairwise.sublist (List.take_sublist _ _) (pairwise_sortByCreatedDesc _)

/-- C7 witness: in `envA`, fetching `"priv"` as non-member alice is 403,
fetching an unknown room is 404, and fetching `"pub"` returns the reversed
newest-first query, here the two stored messages oldest-first. -/
theorem get_room_messages_spec_witness :
    get_room_messages envA
        [⟨"m1", "a", "pub", "alice", "Alice", none, 5⟩,
         ⟨"m2", "b", "pub", "alice", "Alice", none, 3⟩] "priv" "alice" =
      .error (403, "Access denied to private room") ∧
    get_room_messages envA [] "nope" "alice" = .error (404, "Room not found") ∧
    get_room_messages envA
        [⟨"m1", "a", "pub", "alice", "Alice", none, 5⟩,
         ⟨"m2", "b", "pub", "alice", "Alice", none, 3⟩] "pub" "alice" =
      .ok [⟨"m2", "b", "pub", "alice", "Alice", none, 3⟩,
           ⟨"m1", "a", "pub", "alice", "Alice", none, 5⟩] := by
  refine ⟨(get_room_messages_spec envA
      [⟨"m1", "a", "pub", "alice", "Alice", none, 5⟩,
       ⟨"m2", "b", "pub", "alice", "Alice", none, 3⟩] "priv" "alice").2.1
      ⟨true, ["bob"]⟩ (by decide) (by decide) (by decide),
    (get_room_messages_spec envA [] "nope" "alice").1 (by decide), ?_⟩
  have h := ((get_room_messages_spec envA
      [⟨"m1", "a", "pub", "alice", "Alice", none, 5⟩,
       ⟨"m2", "b", "pub", "alice", "Alice", none, 3⟩] "pub" "alice").2.2.2
      ⟨false, []⟩ (by decide) (by decide)).1
  rw [h]
  rfl

end MiRC
